import Mathlib

/-!
Verification development for the vscode-notion rendering and caching core.

The definitions below are shallow embeddings of the TypeScript sources:
`src/notion-api-utils/property-extractor.ts` (current version, with the
date-range arrow and the OPEN button), `src/notion-api-utils/block-to-markdown.ts`,
`src/notion-api-utils/markdown-converter.ts` (inline-database resolver),
and `src/ui/notion-tree-provider.ts` (hierarchy cache, ancestor chain).

JavaScript-specific conventions used throughout the embedding:
* `Option` models `undefined`/`null` for object-valued fields; where the
  distinction between `undefined` and `null` is observable (strict `!==`
  comparisons) we use `Option (Option String)` with `none` = `undefined`
  and `some none` = `null`.
* JS string falsiness (`s ? a : b` with `""` falsy) is modelled by explicit
  emptiness tests.
* Asynchronous callbacks that may reject are modelled as `Except Unit`-valued
  functions; recursion through a fetch callback carries an explicit fuel
  parameter (fuel exhaustion behaves like a failed fetch).
-/

namespace VN

/-- JS `Array.prototype.join(sep)` on a list of strings. -/
def joinSep (sep : String) : List String → String
  | [] => ""
  | [x] => x
  | x :: y :: rest => x ++ sep ++ joinSep sep (y :: rest)

/-- A rich-text span; only `plain_text` is consumed by the renderer. -/
structure RichText where
  plain_text : String
deriving DecidableEq, Repr

/-- Payload of a `date`-typed property value: `{start, end}`, each
`string | null` in the JSON shape (`none` models `null`). The `end` field is
renamed `end_` because `end` is a Lean keyword. -/
structure DateData where
  start : Option String
  end_ : Option String
deriving DecidableEq, Repr

/-- Payload of a `select`/`multi_select` option: `{name}`. -/
structure SelectData where
  name : Option String
deriving DecidableEq, Repr

/-- Payload of a `status`-typed property value: `{name, color}`. -/
structure StatusData where
  name : Option String
  color : Option String
deriving DecidableEq, Repr

/-- A property value object as consumed by `extractPropertyValue`
(`src/notion-api-utils/property-extractor.ts`). The object is dynamic in JS;
we model every field accessed by the source, `none` standing for an absent
field. `number` is restricted to integers (floating point is not modelled;
no claim depends on numeric formatting). -/
structure Property where
  type : String
  id : Option String := none
  title : Option (List RichText) := none
  rich_text : Option (List RichText) := none
  number : Option Int := none
  select : Option SelectData := none
  multi_select : Option (List SelectData) := none
  date : Option DateData := none
  checkbox : Bool := false
  url : Option String := none
  email : Option String := none
  phone_number : Option String := none
  status : Option StatusData := none
  created_time : Option String := none
  last_edited_time : Option String := none
deriving DecidableEq, Repr

/-- `prop.title?.map(t => t.plain_text).join("") || ""`. JS `join` renders an
`undefined` element as the empty string, hence the `getD ""` on names in the
multi-select case below. -/
def richTextJoin (rt : Option (List RichText)) : String :=
  match rt with
  | none => ""
  | some l => joinSep "" (l.map (·.plain_text))

/-- `extractDatePropertyValue(prop)` from property-extractor.ts: returns the
raw `{start, end}` pair; `prop.date?.start || null` collapses falsy values
(absent payload, empty string) to `null`. -/
def extractDatePropertyValue (prop : Option Property) : DateData :=
  match prop with
  | none => ⟨none, none⟩
  | some p =>
    if p.type = "date" then
      match p.date with
      | none => ⟨none, none⟩
      | some d =>
        ⟨match d.start with
          | some s => if s = "" then none else some s
          | none => none,
          match d.end_ with
          | some e => if e = "" then none else some e
          | none => none⟩
    else ⟨none, none⟩

/-- `extractStatusPropertyValue(prop)` from property-extractor.ts. -/
def extractStatusPropertyValue (prop : Option Property) : String × String :=
  match prop with
  | none => ("", "default")
  | some p =>
    if p.type = "status" then
      match p.status with
      | none => ("", "default")
      | some st =>
        ((match st.name with | some n => n | none => ""),
         (match st.color with | some c => if c = "" then "default" else c | none => "default"))
    else ("", "default")

/-- `extractPropertyValue(prop)` from property-extractor.ts (the current
version, whose `date` case renders `` `${start} → ${end}` `` when
`prop.date?.end` is truthy). A JS template literal stringifies `null` as
`"null"`, which the `date` case reproduces when `start` is null but `end`
is a non-empty string. -/
def extractPropertyValue (prop : Option Property) : String :=
  match prop with
  | none => ""
  | some p =>
    if p.type = "title" then richTextJoin p.title
    else if p.type = "rich_text" then richTextJoin p.rich_text
    else if p.type = "number" then
      match p.number with | some n => toString n | none => ""
    else if p.type = "select" then
      match p.select with | some s => s.name.getD "" | none => ""
    else if p.type = "multi_select" then
      match p.multi_select with
      | some l => joinSep ", " (l.map (fun s => s.name.getD ""))
      | none => ""
    else if p.type = "date" then
      match p.date with
      | none => ""
      | some d =>
        match d.end_ with
        | some e =>
          if e = "" then d.start.getD ""
          else (match d.start with | some s => s | none => "null") ++ " → " ++ e
        | none => d.start.getD ""
    else if p.type = "checkbox" then (if p.checkbox then "✓" else "")
    else if p.type = "url" then p.url.getD ""
    else if p.type = "email" then p.email.getD ""
    else if p.type = "phone_number" then p.phone_number.getD ""
    else if p.type = "status" then
      match p.status with | some st => st.name.getD "" | none => ""
    else if p.type = "created_time" then p.created_time.getD ""
    else if p.type = "last_edited_time" then p.last_edited_time.getD ""
    else ""

/-- A database row: `{id, properties}`. `properties` is a JS object; we model
it as an association list preserving key insertion order, lookup returning
`none` for a missing key. -/
structure Row where
  id : Option String := none
  properties : List (String × Property) := []
deriving DecidableEq, Repr

/-- `row.properties[propName]` dictionary access. -/
def propLookup (props : List (String × Property)) (name : String) : Option Property :=
  match props.find? (fun kv => kv.1 = name) with
  | some kv => some kv.2
  | none => none

/-- Character-level body of
`value.replaceAll("|", "\\|").replaceAll("\n", " ")`: every pipe is
expanded to backslash-pipe and every newline becomes a space. The two
single-character `replaceAll`s fuse into one pass because the first never
produces a newline and the second never produces a pipe. -/
def escapeCellChars : List Char → List Char
  | [] => []
  | c :: rest =>
    if c = '|' then '\\' :: '|' :: escapeCellChars rest
    else (if c = '\n' then ' ' else c) :: escapeCellChars rest

/-- `value.replaceAll("|", "\\|").replaceAll("\n", " ")`. -/
def escapeCell (v : String) : String :=
  ⟨escapeCellChars v.data⟩

/-- `` row.id ? `[OPEN](/${row.id})` : "" `` — the OPEN-button cell. -/
def openButton (id : Option String) : String :=
  match id with
  | some s => if s = "" then "" else "[OPEN](/" ++ s ++ ")"
  | none => ""

/-- `rowToMarkdownTableRow(row, propertyNames)` from property-extractor.ts
(current version with the leading OPEN button). -/
def rowToMarkdownTableRow (row : Row) (propertyNames : List String) : String :=
  let cells := propertyNames.map fun propName =>
    escapeCell (extractPropertyValue (propLookup row.properties propName))
  "| " ++ openButton row.id ++ " | " ++ joinSep " | " cells ++ " |"

/-! ## Block renderer and document assembler (block-to-markdown.ts) -/

/-- Payload of a heading block (`heading_1`/`heading_2`/`heading_3`):
`rich_text` spans and the `is_toggleable` flag (absent flag is falsy). -/
structure HeadingData where
  rich_text : Option (List RichText) := none
  is_toggleable : Bool := false
deriving DecidableEq, Repr

/-- Payload of a `paragraph` block. -/
structure ParagraphData where
  rich_text : Option (List RichText) := none
deriving DecidableEq, Repr

/-- Payload of a `toggle` block. -/
structure ToggleData where
  rich_text : Option (List RichText) := none
deriving DecidableEq, Repr

/-- Payload of a `table_row` block: `cells` is a list of rich-text lists. -/
structure TableRowData where
  cells : Option (List (List RichText)) := none
deriving DecidableEq, Repr

/-- Payload of a `to_do` block. -/
structure TodoData where
  rich_text : Option (List RichText) := none
  checked : Bool := false
deriving DecidableEq, Repr

/-- Payload of a `code` block. -/
structure CodeData where
  rich_text : Option (List RichText) := none
  language : Option String := none
deriving DecidableEq, Repr

/-- Payload of a `child_page` / `child_database` reference block. -/
structure ChildRefData where
  title : Option String := none
deriving DecidableEq, Repr

/-- Payload of a `quote` block. -/
structure QuoteData where
  rich_text : Option (List RichText) := none
deriving DecidableEq, Repr

/-- Payload of a `callout` block: optional emoji icon and rich text. -/
structure CalloutData where
  emoji : Option String := none
  rich_text : Option (List RichText) := none
deriving DecidableEq, Repr

/-- `block.parent` as read by `processTableRow` (`block.parent?.block_id`). -/
structure ParentRef where
  block_id : Option String := none
deriving DecidableEq, Repr

/-- A content block as consumed by block-to-markdown.ts. Blocks are dynamic
JS objects keyed by a `type` string plus a payload field named after the
type; we model every field the source reads. The `image`, `video` and
`embed` renderers (URL rewriting; the embed case folds `Date.now()` into the
produced URL, so it is not a pure function) are not modelled — no claim
depends on them — and their types fall to the unsupported branch here. -/
structure Block where
  id : String := ""
  type : String
  has_children : Bool := false
  parent : Option ParentRef := none
  paragraph : Option ParagraphData := none
  heading_1 : Option HeadingData := none
  heading_2 : Option HeadingData := none
  heading_3 : Option HeadingData := none
  toggle : Option ToggleData := none
  table_row : Option TableRowData := none
  to_do : Option TodoData := none
  code : Option CodeData := none
  child_page : Option ChildRefData := none
  child_database : Option ChildRefData := none
  quote : Option QuoteData := none
  callout : Option CalloutData := none
  bulleted_list_item : Option ParagraphData := none
  numbered_list_item : Option ParagraphData := none
deriving DecidableEq, Repr

/-- `getRichTextPlainText(richText)`. -/
def getRichTextPlainText (rt : Option (List RichText)) : String :=
  richTextJoin rt

/-- JS `text.split("\n\n")` at character level (leftmost, non-overlapping). -/
def splitOnNN : List Char → List (List Char)
  | [] => [[]]
  | '\n' :: '\n' :: rest => [] :: splitOnNN rest
  | c :: rest =>
    match splitOnNN rest with
    | [] => [[c]]
    | h :: t => (c :: h) :: t

/-- JS `text.includes("\n\n")`. -/
def containsNN : List Char → Bool
  | [] => false
  | '\n' :: '\n' :: _ => true
  | _ :: rest => containsNN rest

/-- `renderParagraph`: joined span text; a `"\n\n"` inside the text is kept
as a Markdown paragraph break (split, drop empty parts, re-join). -/
def renderParagraph (b : Block) : String :=
  let text := richTextJoin (b.paragraph.bind (·.rich_text))
  if containsNN text.data then
    joinSep "\n\n"
      (((splitOnNN text.data).filter (fun (p : List Char) => p.length > 0)).map
        fun p => String.mk p)
  else text

/-- The `heading_${level}` payload of a block. -/
def headingData (level : Nat) (b : Block) : Option HeadingData :=
  match level with
  | 1 => b.heading_1
  | 2 => b.heading_2
  | 3 => b.heading_3
  | _ => none

/-- `renderHeading(level, block)`: `#`×level plus text, or a disclosure-open
fragment when the heading is toggleable (no closing tag emitted here). -/
def renderHeading (level : Nat) (b : Block) : String :=
  let h := headingData level b
  let text := getRichTextPlainText (h.bind (·.rich_text))
  let isToggleable := match h with | some hd => hd.is_toggleable | none => false
  if isToggleable then
    "<details>\n<summary><h" ++ toString level ++ ">" ++ text ++ "</h" ++
      toString level ++ "></summary>\n"
  else
    String.mk (List.replicate level '#') ++ " " ++ text

/-- `renderTodo`. -/
def renderTodo (b : Block) : String :=
  let checked := match b.to_do with | some d => d.checked | none => false
  let text := getRichTextPlainText (b.to_do.bind (·.rich_text))
  let checkedAttr := if checked then " checked" else ""
  let checkedClass := if checked then " is-checked" else ""
  "<div class=\"notion-todo" ++ checkedClass ++
    "\"><input type=\"checkbox\" class=\"notion-todo-checkbox\"" ++ checkedAttr ++
    " tabindex=\"-1\" aria-disabled=\"true\" /> <span class=\"notion-todo-text\">" ++
    text ++ "</span></div>"

/-- `renderCode`. -/
def renderCode (b : Block) : String :=
  let language := match b.code.bind (·.language) with
    | some l => if l = "" then "text" else l
    | none => "text"
  let code := getRichTextPlainText (b.code.bind (·.rich_text))
  "```" ++ language ++ "\n" ++ code ++ "\n```"

/-- `renderChildPage`. -/
def renderChildPage (b : Block) : String :=
  let pageTitle := match b.child_page.bind (·.title) with
    | some t => if t = "" then "Untitled Page" else t
    | none => "Untitled Page"
  "📄 [" ++ pageTitle ++ "](/" ++ b.id ++ ")"

/-- `renderChildDatabase`: emits the inline-database placeholder token
resolved later by `collectInlineDbData`. -/
def renderChildDatabase (b : Block) : String :=
  let databaseTitle := match b.child_database.bind (·.title) with
    | some t => if t = "" then "Untitled Database" else t
    | none => "Untitled Database"
  "__INLINE_DB_PLACEHOLDER__" ++ b.id ++ "__" ++ databaseTitle ++ "__"

/-- `renderQuote`. -/
def renderQuote (b : Block) : String :=
  "> " ++ getRichTextPlainText (b.quote.bind (·.rich_text))

/-- `renderCallout`. -/
def renderCallout (b : Block) : String :=
  let icon := match b.callout.bind (·.emoji) with
    | some e => if e = "" then "💡" else e
    | none => "💡"
  let text := getRichTextPlainText (b.callout.bind (·.rich_text))
  "```callout\n" ++ icon ++ " " ++ text ++ "\n```"

/-- `renderToggle`: disclosure-open fragment, no closing tag. -/
def renderToggle (b : Block) : String :=
  "<details>\n<summary>" ++ getRichTextPlainText (b.toggle.bind (·.rich_text)) ++
    "</summary>\n"

/-- `renderTableRow`: a single `| cell | … |` line. -/
def renderTableRow (b : Block) : String :=
  let cells := (b.table_row.bind (·.cells)).getD []
  let cellContents := cells.map fun cellRichTexts =>
    joinSep "" (cellRichTexts.map (·.plain_text))
  "| " ++ joinSep " | " cellContents ++ " |"

/-- `blockToMarkdown(block)`: dispatch on the `type` tag (the source uses a
string-keyed record of renderers); unsupported types yield `""`. -/
def blockToMarkdown (b : Block) : String :=
  if b.type = "paragraph" then renderParagraph b
  else if b.type = "heading_1" then renderHeading 1 b
  else if b.type = "heading_2" then renderHeading 2 b
  else if b.type = "heading_3" then renderHeading 3 b
  else if b.type = "bulleted_list_item" then
    "- " ++ getRichTextPlainText (b.bulleted_list_item.bind (·.rich_text))
  else if b.type = "numbered_list_item" then
    "1. " ++ getRichTextPlainText (b.numbered_list_item.bind (·.rich_text))
  else if b.type = "to_do" then renderTodo b
  else if b.type = "code" then renderCode b
  else if b.type = "child_page" then renderChildPage b
  else if b.type = "child_database" then renderChildDatabase b
  else if b.type = "quote" then renderQuote b
  else if b.type = "callout" then renderCallout b
  else if b.type = "toggle" then renderToggle b
  else if b.type = "divider" then "---"
  else if b.type = "table" then ""
  else if b.type = "table_row" then renderTableRow b
  else ""

/-- JS distinguishes `undefined` (`none`) from `null` (`some none`); the
table state's `currentTableParentId` is compared with `!==` against
`block.parent?.block_id`, where that distinction is observable. -/
abbrev JsMaybeStr := Option (Option String)

/-- The assembler's cross-iteration table state. -/
structure TableState where
  currentTableParentId : JsMaybeStr
  isFirstRowInCurrentTable : Bool
deriving DecidableEq, Repr

/-- `block.parent?.block_id` lifted into the JS value lattice. -/
def rowParentJs (b : Block) : JsMaybeStr :=
  match b.parent with
  | none => none
  | some p =>
    match p.block_id with
    | none => none
    | some s => some (some s)

/-- `isToggleOrToggleHeading(block)`. -/
def isToggleOrToggleHeading (b : Block) : Bool :=
  if b.type = "toggle" then true
  else
    (b.type = "heading_1" && (match b.heading_1 with | some h => h.is_toggleable | none => false)) ||
    (b.type = "heading_2" && (match b.heading_2 with | some h => h.is_toggleable | none => false)) ||
    (b.type = "heading_3" && (match b.heading_3 with | some h => h.is_toggleable | none => false))

/-- `shouldSkipChildren(block)`: child-page/child-database references are
never expanded. -/
def shouldSkipChildren (b : Block) : Bool :=
  b.type = "child_page" || b.type = "child_database"

/-- `processTableRow(block, state)`: emit the row line, and after the first
row of a new table a separator sized to the row's cell count; returns the
updated state (the source mutates it in place). -/
def processTableRow (b : Block) (st : TableState) : String × TableState :=
  let rowParentId := rowParentJs b
  let cellCount := ((b.table_row.bind (·.cells)).getD []).length
  let st1 : TableState :=
    if rowParentId ≠ st.currentTableParentId then ⟨rowParentId, true⟩ else st
  let line := blockToMarkdown b ++ "\n"
  if st1.isFirstRowInCurrentTable then
    (line ++ "| " ++ joinSep " | " (List.replicate cellCount "---") ++ " |\n",
     ⟨st1.currentTableParentId, false⟩)
  else
    (line, st1)

/-- `childMarkdown.endsWith("\n\n") ? childMarkdown : childMarkdown + "\n\n"`. -/
def ensureTrailingBlank (s : String) : String :=
  if ['\n', '\n'].isSuffixOf s.data then s else s ++ "\n\n"

/-- The child-fetch callback `getChildBlocks`: asynchronous and fallible
(`Except.error` models a rejected promise). -/
abbrev GetChildBlocks := String → Except Unit (List Block)

/-- The loop body of `blocksToMarkdown`: fold the block list through the
table state, dispatching `table_row` blocks to `processTableRow` and
everything else (via the `pnb` parameter) to the depth-bounded
`processNormalBlock`, resetting the table state after any non-`table`
normal block. -/
def blocksToMarkdownGo (pnb : Block → String) (st : TableState) : List Block → String
  | [] => ""
  | b :: rest =>
    if b.type = "table_row" then
      let (frag, st') := processTableRow b st
      frag ++ blocksToMarkdownGo pnb st' rest
    else
      let st' : TableState := if b.type ≠ "table" then ⟨some none, false⟩ else st
      pnb b ++ blocksToMarkdownGo pnb st' rest

/-- `processNormalBlock(block, getChildBlocks)`. The `fuel` parameter bounds
recursion depth through the fetch callback (the source recursion is unbounded
in general); exhausted fuel behaves like a failed fetch, which the source
swallows. -/
def processNormalBlock : Nat → Option GetChildBlocks → Block → String
  | fuel, gcb, b =>
    let r0 := blockToMarkdown b ++ "\n\n"
    let r1 := if isToggleOrToggleHeading b && !b.has_children then r0 ++ "</details>\n" else r0
    if b.has_children && !shouldSkipChildren b then
      match gcb with
      | none => r1
      | some f =>
        match fuel with
        | 0 => r1
        | fuel' + 1 =>
          match f b.id with
          | Except.error _ => r1
          | Except.ok childBlocks =>
            let childMarkdown :=
              blocksToMarkdownGo (processNormalBlock fuel' (some f))
                ⟨some none, false⟩ childBlocks
            let r2 := r1 ++ ensureTrailingBlank childMarkdown
            if isToggleOrToggleHeading b then r2 ++ "</details>\n" else r2
    else r1

/-- `blocksToMarkdown(blocks, getChildBlocks)` with initial table state
`{currentTableParentId: null, isFirstRowInCurrentTable: false}`. -/
def blocksToMarkdown (fuel : Nat) (gcb : Option GetChildBlocks) (blocks : List Block) : String :=
  blocksToMarkdownGo (processNormalBlock fuel gcb) ⟨some none, false⟩ blocks

/-! ## Inline-database resolver (markdown-converter.ts) -/

/-- `getOrderedPropertyNames(properties)`: the title-typed (or id `"title"`)
column, when present, is moved to the front; remaining names keep their
natural order. -/
def getOrderedPropertyNames (properties : List (String × Property)) : List String :=
  let names := properties.map (·.1)
  match names.find? (fun name =>
      match propLookup properties name with
      | some prop => prop.type = "title" || prop.id = some "title"
      | none => false) with
  | none => names
  | some titleName => titleName :: names.filter (· ≠ titleName)

/-- A table cell: either a display string or a raw `{start, end}` date
range (`convertRowsToTableData` keeps date cells structured). -/
inductive CellValue where
  | str : String → CellValue
  | dateRange : DateData → CellValue
deriving DecidableEq, Repr

/-- `convertRowsToTableData(rows, propertyNames)`. -/
def convertRowsToTableData (rows : List Row) (propertyNames : List String) :
    List String × List (Option String × List CellValue) :=
  (propertyNames,
   rows.map fun row =>
     (row.id,
      propertyNames.map fun propName =>
        match propLookup row.properties propName with
        | some prop =>
          if prop.type = "date" then
            CellValue.dateRange (extractDatePropertyValue (some prop))
          else CellValue.str (extractPropertyValue (some prop))
        | none => CellValue.str (extractPropertyValue none)))

/-- The computed database view kind. -/
inductive ViewType where
  | table
  | calendar
  | timeline
deriving DecidableEq, Repr

/-- `prop && prop.type === "date" && prop.date?.start` — truthy start. -/
def rowHasDateStart (propName : String) (row : Row) : Bool :=
  match propLookup row.properties propName with
  | some prop =>
    prop.type = "date" &&
      (match prop.date with
       | some d => match d.start with | some s => s ≠ "" | none => false
       | none => false)
  | none => false

/-- `prop && prop.type === "date" && prop.date?.end !== null`. Note the
strict `!==`: when the `date` payload itself is `null`/absent, the optional
chain yields `undefined`, and `undefined !== null` is TRUE, so such a row
counts as having a date range even though it has no end value. -/
def rowHasDateEndNotNull (propName : String) (row : Row) : Bool :=
  match propLookup row.properties propName with
  | some prop =>
    prop.type = "date" &&
      (match prop.date with
       | some d => d.end_.isSome
       | none => true)
  | none => false

/-- The property-scan loop of `detectDateProperty`: walk the first row's
properties in order; the first date-typed column with a truthy start in some
row is selected, and the view kind is `timeline` when `rowHasDateEndNotNull`
holds for some row, else `calendar`. -/
def detectDatePropGo (rows : List Row) : List (String × Property) → Option String × ViewType
  | [] => (none, ViewType.table)
  | (propName, propValue) :: rest =>
    if propValue.type = "date" then
      if rows.any (rowHasDateStart propName) then
        (some propName,
         if rows.any (rowHasDateEndNotNull propName) then ViewType.timeline
         else ViewType.calendar)
      else detectDatePropGo rows rest
    else detectDatePropGo rows rest

/-- `detectDateProperty(rows)` from markdown-converter.ts. -/
def detectDateProperty (rows : List Row) : Option String × ViewType :=
  match rows with
  | [] => (none, ViewType.table)
  | firstRow :: _ => detectDatePropGo rows firstRow.properties

/-- JS object upsert `m[k] = v`: first insertion keeps its position, later
assignments overwrite the value. -/
def objUpsert (m : List (String × String)) (k v : String) : List (String × String) :=
  if m.any (fun kv => kv.1 = k) then
    m.map fun kv => if kv.1 = k then (k, v) else kv
  else m ++ [(k, v)]

/-- The status-color collection loop inside `collectInlineDbData`: for the
first status-typed column of the first row, collect `{name: color}` over all
rows (skipping rows whose property lacks a truthy `status` payload or name). -/
def collectStatusColorsForProp (propName : String) (rows : List Row) :
    List (String × String) → List (String × String)
  | acc =>
    rows.foldl
      (fun acc row =>
        match propLookup row.properties propName with
        | some rowProp =>
          match rowProp.status with
          | some _ =>
            let info := extractStatusPropertyValue (some rowProp)
            if info.1 ≠ "" then objUpsert acc info.1 info.2 else acc
          | none => acc
        | none => acc)
      acc

/-- First status-typed property of the first row (the `for..in` +
`break` loop of `collectInlineDbData`); `none` when there is none, in which
case `statusColorMap` stays `undefined`. -/
def firstStatusProp : List (String × Property) → Option String
  | [] => none
  | (propName, prop) :: rest =>
    if prop.type = "status" then some propName else firstStatusProp rest

/-- The date-property scan inside `collectInlineDbData` (lines 581–595 of
markdown-converter.ts — same algorithm as `detectDatePropGo` but yielding
only the name). -/
def inlineDetectDatePropName (rows : List Row) : List (String × Property) → Option String
  | [] => none
  | (propName, propValue) :: rest =>
    if propValue.type = "date" then
      if rows.any (rowHasDateStart propName) then some propName
      else inlineDetectDatePropName rows rest
    else inlineDetectDatePropName rows rest

/-- One collected inline database entry. -/
structure InlineDb where
  databaseId : String
  title : String
  viewType : ViewType
  datePropertyName : Option String
  statusColorMap : Option (List (String × String))
  tableData : List String × List (Option String × List CellValue)
deriving DecidableEq, Repr

/-- `{ is_inline, title }` returned by the database-metadata fetcher. -/
structure DbInfo where
  is_inline : Bool
  title : String
deriving DecidableEq, Repr

/-- One regex match of `/__INLINE_DB_PLACEHOLDER__([^_]+)__(.+?)__/g`:
the full matched text and the two capture groups. -/
structure PMatch where
  fullMatch : String
  databaseId : String
  title : String
deriving DecidableEq, Repr

/-- The lazy `(.+?)__` tail of the placeholder pattern: the shortest
non-empty run of non-newline characters followed by `"__"` (`.` does not
match `\n`). Returns the captured title and the remaining input. -/
def lazyTitle : List Char → Option (List Char × List Char)
  | [] => none
  | c :: rest =>
    if c = '\n' then none
    else if ['_', '_'].isPrefixOf rest then some ([c], rest.drop 2)
    else (lazyTitle rest).map fun tr => (c :: tr.1, tr.2)

/-- The placeholder literal prefix. -/
def placeholderPrefix : List Char := "__INLINE_DB_PLACEHOLDER__".data

/-- Try to match the placeholder pattern at the head of the input. The
greedy `([^_]+)` takes the maximal non-empty run of non-underscore
characters (backtracking cannot help since shorter runs still end before an
underscore), which must be followed by `"__"`; then the lazy title. Returns
the match and the remaining input after it. -/
def matchPlaceholderAt (l : List Char) : Option (PMatch × List Char) :=
  if placeholderPrefix.isPrefixOf l then
    let l1 := l.drop placeholderPrefix.length
    let dbId := l1.takeWhile (fun c => c ≠ '_')
    let l2 := l1.dropWhile (fun c => c ≠ '_')
    if dbId.isEmpty then none
    else if ['_', '_'].isPrefixOf l2 then
      match lazyTitle (l2.drop 2) with
      | some (t, r) =>
        some (⟨String.mk (placeholderPrefix ++ dbId ++ ['_', '_'] ++ t ++ ['_', '_']),
               String.mk dbId, String.mk t⟩, r)
      | none => none
    else none
  else none

/-- `[...markdown.matchAll(placeholderPattern)]`: scan left to right, trying
each position; after a match, continue from the end of the match. Driven by
an explicit position budget for termination (a match always consumes at
least one character, so `l.length` budget is enough). -/
def scanPlaceholdersGo : Nat → List Char → List PMatch
  | 0, _ => []
  | _ + 1, [] => []
  | budget + 1, c :: rest =>
    match matchPlaceholderAt (c :: rest) with
    | some (m, after) => m :: scanPlaceholdersGo budget after
    | none => scanPlaceholdersGo budget rest

/-- All placeholder matches of a markdown string. -/
def scanPlaceholders (markdown : String) : List PMatch :=
  scanPlaceholdersGo markdown.data.length markdown.data

/-- JS `str.replace(searchString, replacement)` with a string search value:
replace the first occurrence only. The `$`-escape expansion JS performs in
the replacement string is not modelled (replacement is spliced literally). -/
def replaceFirstL (pat repl : List Char) : List Char → List Char
  | [] => []
  | c :: rest =>
    if pat.isPrefixOf (c :: rest) then repl ++ (c :: rest).drop pat.length
    else c :: replaceFirstL pat repl rest

/-- `resultMarkdown.replace(fullMatch, link)` on strings. -/
def replaceFirst (s pat repl : String) : String :=
  String.mk (replaceFirstL pat.data repl.data s.data)

/-- `` `📋 [${title}](/${databaseId})` `` — the fallback / full-page link. -/
def dbLink (title databaseId : String) : String :=
  "📋 [" ++ title ++ "](/" ++ databaseId ++ ")"

/-- The per-match body of the `for (const match of matches)` loop in
`collectInlineDbData`, including the surrounding `try`/`catch`: a failure of
either fetcher replaces the placeholder with a link built from the original
captured title; a full-page database is replaced with a link built from the
fetched title; an inline database with a non-empty row set is collected into
the accumulator; an inline database with no rows changes nothing. -/
def collectInlineStep (queryRows : String → Except Unit (List Row))
    (getDatabaseInfo : Option (String → Except Unit DbInfo)) (m : PMatch)
    (md : String) (dbs : List InlineDb) : String × List InlineDb :=
  if m.databaseId = "" || m.title = "" then (md, dbs)
  else
    let infoRes : Except Unit DbInfo :=
      match getDatabaseInfo with
      | some f => f m.databaseId
      | none => Except.ok ⟨true, m.title⟩
    match infoRes with
    | Except.error _ => (replaceFirst md m.fullMatch (dbLink m.title m.databaseId), dbs)
    | Except.ok info =>
      let dbTitle := if info.title = "" then m.title else info.title
      if !info.is_inline then
        (replaceFirst md m.fullMatch (dbLink dbTitle m.databaseId), dbs)
      else
        match queryRows m.databaseId with
        | Except.error _ => (replaceFirst md m.fullMatch (dbLink m.title m.databaseId), dbs)
        | Except.ok rows =>
          if rows.length > 0 then
            let properties := (rows.head?.map (·.properties)).getD []
            let propertyNames := getOrderedPropertyNames properties
            let datePropertyName := inlineDetectDatePropName rows properties
            let viewType :=
              match datePropertyName with
              | none => ViewType.table
              | some dp =>
                if rows.any (rowHasDateEndNotNull dp) then ViewType.timeline
                else ViewType.calendar
            let tableData := convertRowsToTableData rows propertyNames
            let statusColorMap :=
              match firstStatusProp properties with
              | none => none
              | some sp => some (collectStatusColorsForProp sp rows [])
            (md,
             dbs ++ [⟨m.databaseId, dbTitle, viewType, datePropertyName,
                      statusColorMap, tableData⟩])
          else (md, dbs)

/-- The match loop of `collectInlineDbData`. -/
def collectInlineGo (queryRows : String → Except Unit (List Row))
    (getDatabaseInfo : Option (String → Except Unit DbInfo)) :
    List PMatch → String → List InlineDb → String × List InlineDb
  | [], md, dbs => (md, dbs)
  | m :: rest, md, dbs =>
    let (md', dbs') := collectInlineStep queryRows getDatabaseInfo m md dbs
    collectInlineGo queryRows getDatabaseInfo rest md' dbs'

/-- `collectInlineDbData(markdown, queryRows, getDatabaseInfo)` from
markdown-converter.ts. -/
def collectInlineDbData (markdown : String)
    (queryRows : String → Except Unit (List Row))
    (getDatabaseInfo : Option (String → Except Unit DbInfo)) :
    String × List InlineDb :=
  match scanPlaceholders markdown with
  | [] => (markdown, [])
  | ms => collectInlineGo queryRows getDatabaseInfo ms markdown []

/-! ## Hierarchy cache (notion-tree-provider.ts) -/

/-- A tree node: `{id, title, type}` with `type` `"page"` or `"database"`. -/
structure NotionPageTreeItem where
  id : String
  title : String
  type : String
deriving DecidableEq, Repr

/-- Content of one children-cache file: `{timestamp, data}`. `timestamp` is
`none` when the parsed JSON has no numeric timestamp field; the JS validity
check `!cacheData.timestamp || typeof cacheData.timestamp !== "number"` also
rejects a numeric `0` (falsy), handled at the use site. -/
structure CacheFile where
  timestamp : Option Int
  data : List NotionPageTreeItem
deriving DecidableEq, Repr

/-- Association-list lookup, modelling both `Map.get` and a file read. -/
def alistGet {α : Type} (m : List (String × α)) (k : String) : Option α :=
  match m.find? (fun kv => kv.1 = k) with
  | some kv => some kv.2
  | none => none

/-- Association-list upsert, modelling `Map.set` and a file write. -/
def alistPut {α : Type} (m : List (String × α)) (k : String) (v : α) :
    List (String × α) :=
  if m.any (fun kv => kv.1 = k) then
    m.map fun kv => if kv.1 = k then (k, v) else kv
  else m ++ [(k, v)]

/-- Association-list removal, modelling `Map.delete` and `fs.rm`/`unlink`
with `force` semantics (no error when absent). -/
def alistDel {α : Type} (m : List (String × α)) (k : String) : List (String × α) :=
  m.filter fun kv => kv.1 ≠ k

/-- `value.replaceAll("-", "")` (the global hyphen-regex replace in older
revisions): remove every hyphen, the character-level equivalent of replacing
each with the empty string. -/
def normalizeId (value : String) : String :=
  String.mk (value.data.filter fun c => c ≠ '-')

/-- `` getCachePath(pageId) = path.join(cacheDir, `${cleanId}.json`) `` with
`cleanId` the hyphen-stripped page id; the constant cache directory is
elided, file names serve as disk keys. -/
def getCachePath (pageId : String) : String :=
  normalizeId pageId ++ ".json"

/-- The provider's mutable state: the in-memory `cache` map and the disk
cache directory (one `{timestamp, data}` file per key). The `itemCache` and
`parentMap` are irrelevant to the cached-children claims and are elided. -/
structure ProvState where
  cache : List (String × List NotionPageTreeItem)
  disk : List (String × CacheFile)
deriving DecidableEq, Repr

/-- `loadFromCache(pageId)` from notion-tree-provider.ts, with `Date.now()`
and `getCacheTtlMs()` passed explicitly. Returns the hit data (or `none`)
and the possibly-updated disk state: an invalid timestamp or an expired
entry is deleted; a missing file (ENOENT) and a valid hit both leave the
disk untouched — notably, a hit does NOT rewrite the entry. -/
def loadFromCache (now ttl : Int) (pageId : String) (disk : List (String × CacheFile)) :
    Option (List NotionPageTreeItem) × List (String × CacheFile) :=
  let cachePath := getCachePath pageId
  match alistGet disk cachePath with
  | none => (none, disk)
  | some cacheData =>
    match cacheData.timestamp with
    | none => (none, alistDel disk cachePath)
    | some ts =>
      if ts = 0 then (none, alistDel disk cachePath)
      else
        let cacheAgeMs := now - ts
        if cacheAgeMs > ttl then (none, alistDel disk cachePath)
        else (some cacheData.data, disk)

/-- `saveToCache(pageId, data)`: write `{timestamp: Date.now(), data}` at
`getCachePath(pageId)`. -/
def saveToCache (now : Int) (pageId : String) (data : List NotionPageTreeItem)
    (disk : List (String × CacheFile)) : List (String × CacheFile) :=
  alistPut disk (getCachePath pageId) ⟨some now, data⟩

/-- `fetchPageChildren(pageId, type)`: memory → disk → origin, populating
each missed layer on the way back. The origin computation (API fetch plus
block scan / database-record projection, lines 206–251 of the source) is
abstracted as the `origin` parameter keyed by `(type, pageId)`, as it
belongs to the excluded network collaborator. -/
def fetchPageChildren (now ttl : Int)
    (origin : String → String → List NotionPageTreeItem)
    (type pageId : String) (st : ProvState) :
    List NotionPageTreeItem × ProvState :=
  let cacheKey := type ++ ":" ++ pageId
  match alistGet st.cache cacheKey with
  | some items => (items, st)
  | none =>
    match loadFromCache now ttl cacheKey st.disk with
    | (some cachedData, disk') =>
      (cachedData, ⟨alistPut st.cache cacheKey cachedData, disk'⟩)
    | (none, disk') =>
      let children := origin type pageId
      let disk'' := saveToCache now cacheKey children disk'
      (children, ⟨alistPut st.cache cacheKey children, disk''⟩)

/-- `refreshItem(pageId)` from notion-tree-provider.ts (the version at lines
57–78): `this.cache.delete(pageId)` uses the bare page id as the in-memory
key, and the disk unlink targets `` `${pageId}.json` `` directly (no
`getCachePath`, hence no hyphen stripping and no `type:` prefix). The
tree-change event firing is UI-only and elided. -/
def refreshItem (pageId : String) (st : ProvState) : ProvState :=
  ⟨alistDel st.cache pageId, alistDel st.disk (pageId ++ ".json")⟩

/-- A page-cache file of the webview serializer: `{timestamp, state}`. The
serialized webview state is passed through opaquely; a serialized blob
string stands in for it. -/
structure PageCacheFile where
  timestamp : Int
  state : String
deriving DecidableEq, Repr

/-- `savePageToDiskCache(id, state)` from notion-hierarchy-tree-view.ts
(webview serializer): write `{timestamp: Date.now(), state}` at
`` `${id}.json` ``. -/
def savePageToDiskCache (now : Int) (id state : String)
    (disk : List (String × PageCacheFile)) : List (String × PageCacheFile) :=
  alistPut disk (id ++ ".json") ⟨now, state⟩

/-- `loadPageFromDiskCache(id)` (webview serializer): an expired entry is
unlinked; a hit REWRITES the entry with a fresh timestamp
(`savePageToDiskCache` is called on every hit) before returning the state. -/
def loadPageFromDiskCache (now ttl : Int) (id : String)
    (disk : List (String × PageCacheFile)) :
    Option String × List (String × PageCacheFile) :=
  let cacheFile := id ++ ".json"
  match alistGet disk cacheFile with
  | none => (none, disk)
  | some cacheData =>
    if now - cacheData.timestamp > ttl then (none, alistDel disk cacheFile)
    else (some cacheData.state, savePageToDiskCache now id cacheData.state disk)

/-! ## Ancestor chain resolver (notion-tree-provider.ts, current version) -/

/-- `{ item, parentId? }` as returned by `fetchItemInfoWithParent`. -/
structure ItemInfo where
  item : NotionPageTreeItem
  parentId : Option String := none
deriving DecidableEq, Repr

/-- The `while (currentId && guard < 50)` loop of `getAncestorChain`,
as a recursion on the remaining guard budget. Per iteration: a repeated
normalized id aborts with `null`; the item is looked up in the live
`itemCache` first (a cache hit carries NO parent info) and fetched
otherwise; a failed lookup aborts with `null`; reaching the normalized root
stops; a missing (or empty) parent id BREAKS out of the loop — it does not
abort — and the guard running out likewise merely ends the loop; in both
cases the partial chain collected so far is reversed and returned. -/
def ancestorGo (itemCache : String → Option NotionPageTreeItem)
    (fetchInfo : String → Option ItemInfo) (rootNormalized : String) :
    Nat → String → List String → List NotionPageTreeItem →
    Option (List NotionPageTreeItem)
  | 0, _, _, chain =>
    if chain.isEmpty then none else some chain.reverse
  | guard + 1, currentId, seen, chain =>
    if currentId = "" then
      if chain.isEmpty then none else some chain.reverse
    else
      let normalized := normalizeId currentId
      if normalized ∈ seen then none
      else
        let info : Option ItemInfo :=
          match itemCache currentId with
          | some cachedItem => some ⟨cachedItem, none⟩
          | none => fetchInfo currentId
        match info with
        | none => none
        | some info =>
          let chain' := chain ++ [info.item]
          if normalizeId info.item.id = rootNormalized then some chain'.reverse
          else
            match info.parentId with
            | none => some chain'.reverse
            | some pid =>
              if pid = "" then some chain'.reverse
              else ancestorGo itemCache fetchInfo rootNormalized guard pid
                (normalized :: seen) chain'

/-- `getAncestorChain(pageId, rootNormalized)` from the current
notion-tree-provider.ts: guard limit 50, empty seen set and chain. -/
def getAncestorChain (itemCache : String → Option NotionPageTreeItem)
    (fetchInfo : String → Option ItemInfo) (pageId rootNormalized : String) :
    Option (List NotionPageTreeItem) :=
  ancestorGo itemCache fetchInfo rootNormalized 50 pageId [] []

/-! ## Claim C4 — ancestor-chain stop conditions -/

/-- A live-cache hit ends the walk at once with the partial chain: the
cached item carries no parent info, so whether or not it is the root the
loop breaks and the non-empty chain is reversed and returned. -/
theorem ancestorGo_cache_hit (cache : String → Option NotionPageTreeItem)
    (fetch : String → Option ItemInfo) (root : String) (g : Nat)
    (cur : String) (seen : List String) (chain : List NotionPageTreeItem)
    (item : NotionPageTreeItem) (hcur : cur ≠ "")
    (hseen : normalizeId cur ∉ seen) (hc : cache cur = some item) :
    ancestorGo cache fetch root (g + 1) cur seen chain =
      some (chain ++ [item]).reverse := by
  rw [ancestorGo]
  rw [if_neg hcur, if_neg hseen, hc]
  by_cases h : normalizeId item.id = root <;> simp [h]

/-- When the current id is neither cached nor fetchable, the walk aborts
with `null`. -/
theorem ancestorGo_lookup_fail (cache : String → Option NotionPageTreeItem)
    (fetch : String → Option ItemInfo) (root : String) (g : Nat)
    (cur : String) (seen : List String) (chain : List NotionPageTreeItem)
    (hcur : cur ≠ "") (hseen : normalizeId cur ∉ seen)
    (hc : cache cur = none) (hf : fetch cur = none) :
    ancestorGo cache fetch root (g + 1) cur seen chain = none := by
  rw [ancestorGo]
  rw [if_neg hcur, if_neg hseen, hc, hf]

/-- A fetched item with no parent id ends the walk with the partial chain
(`break`, not `return null`), unless its id matches the root — in which case
the same chain is returned as a success. -/
theorem ancestorGo_no_parent (cache : String → Option NotionPageTreeItem)
    (fetch : String → Option ItemInfo) (root : String) (g : Nat)
    (cur : String) (seen : List String) (chain : List NotionPageTreeItem)
    (item : NotionPageTreeItem) (hcur : cur ≠ "")
    (hseen : normalizeId cur ∉ seen) (hc : cache cur = none)
    (hf : fetch cur = some ⟨item, none⟩) :
    ancestorGo cache fetch root (g + 1) cur seen chain =
      some (chain ++ [item]).reverse := by
  rw [ancestorGo]
  rw [if_neg hcur, if_neg hseen, hc, hf]
  by_cases h : normalizeId item.id = root <;> simp [h]

/-- Fetch environment whose parent pointers form an unbounded chain of
distinct ids `"0" → "0x" → "0xx" → …` never reaching any root. -/
def unboundedChainFetch (s : String) : Option ItemInfo :=
  some ⟨⟨s, "t", "page"⟩, some (s ++ "x")⟩

/-- Fetch environment with a two-node parent cycle `"a" ⇄ "b"`. -/
def cycleFetch (s : String) : Option ItemInfo :=
  if s = "a" then some ⟨⟨"a", "A", "page"⟩, some "b"⟩
  else if s = "b" then some ⟨⟨"b", "B", "page"⟩, some "a"⟩
  else none

/-- Fetch environment where `"a"` has no parent id at all. -/
def noParentFetch (s : String) : Option ItemInfo :=
  if s = "a" then some ⟨⟨"a", "A", "page"⟩, none⟩ else none

/-- The always-empty live item cache. -/
def emptyItemCache : String → Option NotionPageTreeItem := fun _ => none

/-- C4 counterexample: the claim says a step yielding no parent id returns
null, and that resolution succeeds only when the hyphen-stripped current id
equals the hyphen-stripped root. With `"a"` having no parent and root
`"r"`, the walk instead returns the one-element partial chain — non-null
success without reaching the root. -/
theorem C4_ancestor_chain_counterexample :
    getAncestorChain emptyItemCache noParentFetch "a" "r" =
        some [⟨"a", "A", "page"⟩] ∧
      normalizeId "a" ≠ "r" := by
  constructor
  · rfl
  · decide

/-- C4 (amended): the walk returns null exactly on a total lookup failure
or a repeated id; a missing parent id (including every live-cache hit,
which carries no parent info) ends the walk with the partial chain rather
than null, and exhausting the 50-hop guard returns the 50-element partial
chain rather than null. -/
theorem C4_ancestor_chain (cache : String → Option NotionPageTreeItem)
    (fetch : String → Option ItemInfo) (pageId root : String)
    (item : NotionPageTreeItem) (hp : pageId ≠ "") :
    (cache pageId = none → fetch pageId = none →
        getAncestorChain cache fetch pageId root = none) ∧
    (cache pageId = some item →
        getAncestorChain cache fetch pageId root = some [item]) ∧
    (cache pageId = none → fetch pageId = some ⟨item, none⟩ →
        getAncestorChain cache fetch pageId root = some [item]) ∧
    getAncestorChain emptyItemCache cycleFetch "a" "r" = none ∧
    (getAncestorChain emptyItemCache unboundedChainFetch "0" "root").map
        List.length = some 50 := by
  refine ⟨?_, ?_, ?_, ?_, ?_⟩
  · intro hc hf
    exact ancestorGo_lookup_fail cache fetch root 49 pageId [] [] hp (by simp) hc hf
  · intro hc
    simpa using ancestorGo_cache_hit cache fetch root 49 pageId [] [] item hp (by simp) hc
  · intro hc hf
    simpa using ancestorGo_no_parent cache fetch root 49 pageId [] [] item hp (by simp) hc hf
  · rfl
  · decide

/-- C4 witness: the amended theorem applied with a concrete one-element
cache environment. -/
theorem C4_ancestor_chain_witness :
    getAncestorChain (fun s => if s = "x" then some ⟨"x", "X", "page"⟩ else none)
        (fun _ => none) "x" "rootn" = some [⟨"x", "X", "page"⟩] :=
  ((C4_ancestor_chain (fun s => if s = "x" then some ⟨"x", "X", "page"⟩ else none)
      (fun _ => none) "x" "rootn" ⟨"x", "X", "page"⟩ (by decide)).2.1) (by decide)

/-! ## Claim C7 — date rendering of `extractPropertyValue` -/

/-- A date property whose payload has non-null start `"2024-01-01"` and the
non-null but empty (falsy) end `""`. -/
def dateEmptyEnd : Property :=
  { type := "date", date := some ⟨some "2024-01-01", some ""⟩ }

/-- C7 counterexample: the claim predicts `"{start} → {end}"` for every
date-typed property with non-null start and non-null end, but on the
payload `{start: "2024-01-01", end: ""}` (an empty string is non-null) the
truthiness test `prop.date?.end` fails and the code returns the start
alone, not `"2024-01-01 → "`. -/
theorem C7_date_arrow_counterexample :
    extractPropertyValue (some dateEmptyEnd) = "2024-01-01" ∧
      extractPropertyValue (some dateEmptyEnd) ≠ "2024-01-01 → " := by
  constructor
  · rfl
  · decide

/-- C7 (amended): for every date-typed property whose payload has a
non-null start and a non-null, NON-EMPTY end, `extractPropertyValue`
returns `"{start} → {end}"`; with a null end it returns the start alone. -/
theorem C7_date_arrow (s e : String) (he : e ≠ "") :
    extractPropertyValue
        (some { type := "date", date := some ⟨some s, some e⟩ }) =
      s ++ " → " ++ e ∧
    extractPropertyValue
        (some { type := "date", date := some ⟨some s, none⟩ }) = s := by
  refine ⟨?_, rfl⟩
  show (if e = "" then _ else s ++ " → " ++ e) = s ++ " → " ++ e
  rw [if_neg he]

/-- C7 witness: the amended theorem at the spec's own example. -/
theorem C7_date_arrow_witness :
    extractPropertyValue
        (some { type := "date", date := some ⟨some "2024-01-01", some "2024-01-05"⟩ }) =
      "2024-01-01 → 2024-01-05" :=
  (C7_date_arrow "2024-01-01" "2024-01-05" (by decide)).1

/-! ## Claim C5 — toggleable heading-1 example -/

/-- The C5 example block: heading-1, `is_toggleable = true`, text `"FAQ"`,
`hasChildren = false`. -/
def faqBlock : Block :=
  { id := "h1", type := "heading_1", has_children := false,
    heading_1 := some { rich_text := some [⟨"FAQ"⟩], is_toggleable := true } }

/-- C5 counterexample: the claimed output has TWO newlines between
`</summary>` and `</details>`, but `renderHeading` already ends its fragment
with `"\n"` and `processNormalBlock` appends `"\n\n"` before the immediate
close, so the actual output has three. -/
theorem C5_faq_example_counterexample :
    blocksToMarkdown 1 none [faqBlock] ≠
      "<details>\n<summary><h1>FAQ</h1></summary>\n\n</details>\n" := by
  decide

/-- C5 (amended): assembling the single toggleable heading-1 block with text
`"FAQ"` and no children produces exactly
`"<details>\n<summary><h1>FAQ</h1></summary>\n\n\n</details>\n"`
(three newlines before the close). -/
theorem C5_faq_example :
    blocksToMarkdown 1 none [faqBlock] =
      "<details>\n<summary><h1>FAQ</h1></summary>\n\n\n</details>\n" := by
  rfl

/-! ## Claim C3 — view-kind determination -/

/-- A row whose `Date` column has a start and a null end. -/
def c3row1 : Row :=
  { id := some "r1",
    properties := [("Date", { type := "date", date := some ⟨some "2024-01-01", none⟩ })] }

/-- A row whose `Date` column is present but has a null payload (a cleared
date value, a perfectly ordinary API shape). -/
def c3row2 : Row :=
  { id := some "r2", properties := [("Date", { type := "date", date := none })] }

/-- C3: the claim (and the code's own comment, "timeline if end exists,
calendar if start only") requires `"calendar"` when date values exist but no
row's date value has an end. On `[c3row1, c3row2]` no date payload carries
an end — every `date.end` is null or the payload itself is null — yet
`detectDateProperty` reports `timeline`, because `prop.date?.end !== null`
evaluates to true on the null payload (`undefined !== null`). -/
theorem C3_view_kind_code_bug :
    detectDateProperty [c3row1, c3row2] = (some "Date", ViewType.timeline) ∧
      (∀ r ∈ [c3row1, c3row2], ∀ p ∈ r.properties, p.2.date.bind (·.end_) = none) ∧
      detectDateProperty [c3row1] = (some "Date", ViewType.calendar) := by
  refine ⟨rfl, ?_, rfl⟩
  decide

/-! ## Claim C10 — shape of a rendered table row -/

/-- Number of pipe characters with a space immediately before and after
(`prev` seeds the predecessor of the first character). In a Markdown table
row of the form `| c0 | c1 | … | cn |` whose cell texts contain no
unescaped pipe, these are exactly the inter-cell delimiters, so the row has
`mdSpacedPipes + 1` cells. -/
def mdSpacedPipes : Char → List Char → Nat
  | _, [] => 0
  | _, [_] => 0
  | prev, c :: d :: rest =>
    (if prev = ' ' ∧ c = '|' ∧ d = ' ' then 1 else 0) + mdSpacedPipes c (d :: rest)

/-- Cell count of a Markdown table-row line: delimiter pipes plus one. The
seed `'|'` is not a space, so a leading pipe is never counted. -/
def mdCellCount (s : String) : Nat :=
  mdSpacedPipes '|' s.data + 1

/-- Every pipe in the list is immediately preceded by a backslash (`prev`
seeds the predecessor of the first character). Escaped cell text satisfies
this, so none of its pipes can be a spaced delimiter. -/
def noBarePipeFrom (prev : Char) : List Char → Bool
  | [] => true
  | c :: rest => ((c != '|') || (prev == '\\')) && noBarePipeFrom c rest

/-- A pipe-free list has no bare pipe from any seed. -/
theorem noBarePipeFrom_of_not_mem (l : List Char) (h : '|' ∉ l) (prev : Char) :
    noBarePipeFrom prev l = true := by
  induction l generalizing prev with
  | nil => rfl
  | cons c rest ih =>
    have hc : c ≠ '|' := fun hc => h (hc ▸ List.mem_cons_self c rest)
    have hr : '|' ∉ rest := fun hm => h (List.mem_cons_of_mem c hm)
    simp [noBarePipeFrom, ih hr, hc]

/-- Skipping a bare-pipe-free prefix: none of its pipes can be counted, so
the spaced-pipe count restarts at the suffix with the prefix's last
character as seed. -/
theorem mdSpacedPipes_append (a : List Char) :
    ∀ (prev : Char) (b : List Char), noBarePipeFrom prev a = true →
      mdSpacedPipes prev (a ++ b) = mdSpacedPipes (a.getLastD prev) b := by
  induction a with
  | nil => intro prev b _; rfl
  | cons c a' ih =>
    intro prev b h
    simp only [noBarePipeFrom, Bool.and_eq_true, Bool.or_eq_true, bne_iff_ne,
      ne_eq, beq_iff_eq] at h
    have hpipe : c = '|' → prev = '\\' := by
      intro hc
      rcases h.1 with h1 | h1
      · exact absurd hc h1
      · exact h1
    have hlast : (c :: a').getLastD prev = a'.getLastD c := List.getLastD_cons prev c a'
    rw [List.cons_append]
    cases ha : a' ++ b with
    | nil =>
      rcases List.append_eq_nil.mp ha with ⟨ha', hb⟩
      subst ha'; subst hb
      simp [mdSpacedPipes, hlast]
    | cons d rest =>
      have hcond : ¬(prev = ' ' ∧ c = '|' ∧ d = ' ') := by
        rintro ⟨hp, hc, _⟩
        have := hpipe hc
        rw [this] at hp
        exact absurd hp (by decide)
      calc mdSpacedPipes prev (c :: d :: rest)
          = (if prev = ' ' ∧ c = '|' ∧ d = ' ' then 1 else 0) +
              mdSpacedPipes c (d :: rest) := rfl
        _ = mdSpacedPipes c (d :: rest) := by rw [if_neg hcond]; omega
        _ = mdSpacedPipes c (a' ++ b) := by rw [ha]
        _ = mdSpacedPipes (a'.getLastD c) b := ih c b h.2
        _ = mdSpacedPipes ((c :: a').getLastD prev) b := by rw [hlast]

/-- Crossing a `" | "` delimiter contributes exactly one spaced pipe, and
the scan continues on the remainder with a space seed. -/
theorem mdSpacedPipes_delim (prev : Char) (b : List Char) :
    mdSpacedPipes prev (' ' :: '|' :: ' ' :: b) = 1 + mdSpacedPipes ' ' b := by
  cases b with
  | nil => simp [mdSpacedPipes]
  | cons e b' => simp [mdSpacedPipes]

/-- The leading `"| "` of a rendered row contributes no spaced pipe. -/
theorem mdSpacedPipes_head (o z : List Char) (c : Char) :
    mdSpacedPipes '|' ('|' :: ' ' :: (o ++ (c :: z))) =
      mdSpacedPipes ' ' (o ++ (c :: z)) := by
  cases o with
  | nil => simp [mdSpacedPipes]
  | cons a as => simp [mdSpacedPipes]

/-- Every pipe in an escaped cell is immediately preceded by a backslash. -/
theorem noBarePipeFrom_escapeCell (v : String) (prev : Char) :
    noBarePipeFrom prev (escapeCell v).data = true := by
  show noBarePipeFrom prev (escapeCellChars v.data) = true
  induction v.data generalizing prev with
  | nil => rfl
  | cons c rest ih =>
    by_cases hc : c = '|'
    · subst hc
      rw [escapeCellChars]
      simp only [if_pos rfl, noBarePipeFrom]
      simp [ih '|']
    · by_cases hn : c = '\n'
      · subst hn
        rw [escapeCellChars]
        simp only [if_neg hc, if_pos rfl, noBarePipeFrom]
        simp [ih ' ']
      · rw [escapeCellChars]
        simp only [if_neg hc, if_neg hn, noBarePipeFrom]
        simp [ih c, hc]

/-- An escaped cell contains no newline. -/
theorem newline_not_mem_escapeCell (v : String) : '\n' ∉ (escapeCell v).data := by
  show '\n' ∉ escapeCellChars v.data
  induction v.data with
  | nil => simp [escapeCellChars]
  | cons c rest ih =>
    by_cases hc : c = '|'
    · subst hc
      rw [escapeCellChars, if_pos rfl]
      intro h
      rcases List.mem_cons.mp h with h | h
      · exact absurd h (by decide)
      rcases List.mem_cons.mp h with h | h
      · exact absurd h (by decide)
      exact ih h
    · rw [escapeCellChars, if_neg hc]
      intro h
      rcases List.mem_cons.mp h with h | h
      · by_cases hn : c = '\n'
        · rw [if_pos hn] at h
          exact absurd h (by decide)
        · rw [if_neg hn] at h
          exact hn h.symm
      · exact ih h

/-- Joining bare-pipe-free cells with `" | "` and closing with `" |"`
produces exactly one spaced pipe per join. -/
theorem mdSpacedPipes_joinSep (cells : List String) (hne : cells ≠ [])
    (hgood : ∀ c ∈ cells, ∀ prev, noBarePipeFrom prev c.data = true) :
    mdSpacedPipes ' ' ((joinSep " | " cells).data ++ [' ', '|']) =
      cells.length - 1 := by
  induction cells with
  | nil => exact absurd rfl hne
  | cons x xs ih =>
    cases xs with
    | nil =>
      show mdSpacedPipes ' ' (x.data ++ [' ', '|']) = 0
      rw [mdSpacedPipes_append x.data ' ' [' ', '|']
        (hgood x (List.mem_cons_self x []) ' ')]
      simp [mdSpacedPipes]
    | cons y rest =>
      have hx : ∀ prev, noBarePipeFrom prev x.data = true := fun prev =>
        hgood x (List.mem_cons_self x (y :: rest)) prev
      have hrest : ∀ c ∈ y :: rest, ∀ prev, noBarePipeFrom prev c.data = true :=
        fun c hc prev => hgood c (List.mem_cons_of_mem x hc) prev
      have hjoin : (joinSep " | " (x :: y :: rest)).data =
          x.data ++ (' ' :: '|' :: ' ' :: (joinSep " | " (y :: rest)).data) := by
        show (x ++ " | " ++ joinSep " | " (y :: rest)).data = _
        simp [String.data_append, List.append_assoc]
      rw [hjoin, List.append_assoc]
      rw [mdSpacedPipes_append x.data ' ' _ (hx ' ')]
      rw [show (' ' :: '|' :: ' ' :: (joinSep " | " (y :: rest)).data) ++ [' ', '|'] =
        ' ' :: '|' :: ' ' :: ((joinSep " | " (y :: rest)).data ++ [' ', '|']) from rfl]
      rw [mdSpacedPipes_delim]
      rw [ih (by simp) hrest]
      simp
      omega

/-- A join of newline-free cells is newline-free. -/
theorem newline_not_mem_joinSep (cells : List String)
    (h : ∀ c ∈ cells, '\n' ∉ c.data) : '\n' ∉ (joinSep " | " cells).data := by
  induction cells with
  | nil => simp [joinSep]
  | cons x xs ih =>
    cases xs with
    | nil => exact h x (List.mem_cons_self x [])
    | cons y rest =>
      show '\n' ∉ (x ++ " | " ++ joinSep " | " (y :: rest)).data
      simp only [String.data_append, List.mem_append]
      rintro ((hx | hlit) | hrest)
      · exact h x (List.mem_cons_self x (y :: rest)) hx
      · exact absurd hlit (by decide)
      · exact ih (fun c hc => h c (List.mem_cons_of_mem x hc)) hrest

/-- The OPEN-button cell has no pipe and no newline when the row id (if
present) has none. -/
theorem openButton_clean (id : Option String) (i : String)
    (hid : id = none ∨ (id = some i ∧ '\n' ∉ i.data ∧ '|' ∉ i.data)) :
    '|' ∉ (openButton id).data ∧ '\n' ∉ (openButton id).data := by
  rcases hid with h | ⟨h, hnl, hpipe⟩
  · subst h; exact ⟨by decide, by decide⟩
  · subst h
    show '|' ∉ (if i = "" then "" else "[OPEN](/" ++ i ++ ")").data ∧
      '\n' ∉ (if i = "" then "" else "[OPEN](/" ++ i ++ ")").data
    by_cases hi : i = ""
    · rw [if_pos hi]; exact ⟨by decide, by decide⟩
    · rw [if_neg hi]
      constructor
      · simp only [String.data_append, List.mem_append]
        rintro ((hl | hm) | hr)
        · exact absurd hl (by decide)
        · exact hpipe hm
        · exact absurd hr (by decide)
      · simp only [String.data_append, List.mem_append]
        rintro ((hl | hm) | hr)
        · exact absurd hl (by decide)
        · exact hnl hm
        · exact absurd hr (by decide)

/-- C10 counterexample: with an empty property-name list the rendered row
is `"|  |  |"`, which has 2 cells, not `0 + 1 = 1`. -/
theorem C10_row_shape_counterexample :
    mdCellCount (rowToMarkdownTableRow ⟨none, []⟩ []) = 2 ∧
      (2 : Nat) ≠ List.length ([] : List String) + 1 := by
  exact ⟨by decide, by decide⟩

/-- C10 (amended): for every row whose id (when present) contains no
newline and no pipe, and every NON-EMPTY property-name list, the rendered
row is a single line (no newline character — newlines in cell values are
replaced by spaces and pipes are escaped), consisting of exactly
`propertyNames.length + 1` cells (counting by spaced delimiter pipes), the
first being the OPEN link to the row's id (empty when the row has none). -/
theorem C10_row_shape (row : Row) (names : List String) (i : String)
    (hn : names ≠ [])
    (hid : row.id = none ∨ (row.id = some i ∧ '\n' ∉ i.data ∧ '|' ∉ i.data)) :
    mdCellCount (rowToMarkdownTableRow row names) = names.length + 1 ∧
      '\n' ∉ (rowToMarkdownTableRow row names).data ∧
      ∃ rest, rowToMarkdownTableRow row names = "| " ++ openButton row.id ++ rest := by
  have hopen := openButton_clean row.id i hid
  set cells : List String := names.map fun propName =>
    escapeCell (extractPropertyValue (propLookup row.properties propName)) with hcells
  have hcellsgood : ∀ c ∈ cells, ∀ prev, noBarePipeFrom prev c.data = true := by
    intro c hc prev
    rw [hcells, List.mem_map] at hc
    rcases hc with ⟨n, _, hcn⟩
    rw [← hcn]
    exact noBarePipeFrom_escapeCell _ prev
  have hcellsnl : ∀ c ∈ cells, '\n' ∉ c.data := by
    intro c hc
    rw [hcells, List.mem_map] at hc
    rcases hc with ⟨n, _, hcn⟩
    rw [← hcn]
    exact newline_not_mem_escapeCell _
  have hcellslen : cells.length = names.length := by rw [hcells, List.length_map]
  have hcellsne : cells ≠ [] := by
    rw [hcells]
    intro h
    exact hn (List.map_eq_nil_iff.mp h)
  have hdata : (rowToMarkdownTableRow row names).data =
      '|' :: ' ' :: ((openButton row.id).data ++
        (' ' :: '|' :: ' ' :: ((joinSep " | " cells).data ++ [' ', '|']))) := by
    show ("| " ++ openButton row.id ++ " | " ++ joinSep " | " cells ++ " |").data = _
    simp only [String.data_append, List.append_assoc]
    rfl
  refine ⟨?_, ?_, ?_⟩
  · rw [mdCellCount, hdata, mdSpacedPipes_head]
    rw [mdSpacedPipes_append _ ' ' _
      (noBarePipeFrom_of_not_mem _ hopen.1 ' ')]
    rw [mdSpacedPipes_delim, mdSpacedPipes_joinSep cells hcellsne hcellsgood]
    rw [hcellslen]
    have hlen : names.length ≠ 0 := by
      cases names with
      | nil => exact absurd rfl hn
      | cons a as => simp
    omega
  · have htail : '\n' ∉ [' ', '|'] := by decide
    have hJ : '\n' ∉ (joinSep " | " cells).data ++ [' ', '|'] := by
      intro h
      rcases List.mem_append.mp h with h | h
      · exact newline_not_mem_joinSep cells hcellsnl h
      · exact htail h
    have hmid : '\n' ∉ ' ' :: '|' :: ' ' :: ((joinSep " | " cells).data ++ [' ', '|']) := by
      intro h
      rcases List.mem_cons.mp h with h | h
      · exact absurd h (by decide)
      rcases List.mem_cons.mp h with h | h
      · exact absurd h (by decide)
      rcases List.mem_cons.mp h with h | h
      · exact absurd h (by decide)
      exact hJ h
    rw [hdata]
    intro h
    rcases List.mem_cons.mp h with h | h
    · exact absurd h (by decide)
    rcases List.mem_cons.mp h with h | h
    · exact absurd h (by decide)
    rcases List.mem_append.mp h with h | h
    · exact hopen.2 h
    · exact hmid h
  · refine ⟨" | " ++ joinSep " | " cells ++ " |", ?_⟩
    show "| " ++ openButton row.id ++ " | " ++ joinSep " | " cells ++ " |" = _
    simp [String.append_assoc]

/-- C10 witness: the amended theorem at a concrete one-column row. -/
theorem C10_row_shape_witness :
    mdCellCount (rowToMarkdownTableRow
          ⟨some "r1", [("A", { type := "rich_text", rich_text := some [⟨"a|b"⟩] })]⟩
          ["A"]) = ["A"].length + 1 ∧
      '\n' ∉ (rowToMarkdownTableRow
          ⟨some "r1", [("A", { type := "rich_text", rich_text := some [⟨"a|b"⟩] })]⟩
          ["A"]).data ∧
      ∃ rest, rowToMarkdownTableRow
          ⟨some "r1", [("A", { type := "rich_text", rich_text := some [⟨"a|b"⟩] })]⟩
          ["A"] = "| " ++ openButton (some "r1") ++ rest :=
  C10_row_shape ⟨some "r1", [("A", { type := "rich_text", rich_text := some [⟨"a|b"⟩] })]⟩
    ["A"] "r1" (by decide) (Or.inr ⟨rfl, by decide, by decide⟩)

end VN

namespace VN

/-! ## Claim C2 — disclosure-fragment balance -/

/-- Number of (possibly overlapping) occurrences of `pat` in a character
list. -/
def countOcc (pat : List Char) : List Char → Nat
  | [] => 0
  | c :: rest => (if pat.isPrefixOf (c :: rest) then 1 else 0) + countOcc pat rest

/-- A toggle block that reports children. -/
def toggleWithKids : Block :=
  { id := "t1", type := "toggle", has_children := true,
    toggle := some { rich_text := some [⟨"T"⟩] } }

/-- C2 counterexample: the claim requires every opened `<details>` fragment
to be matched by exactly one `</details>` — including when the child-fetch
callback is absent or the fetch fails. Assembling a toggle that reports
children with no callback, or with a callback that rejects, emits the open
fragment and never the close. -/
theorem C2_disclosure_balance_counterexample :
    countOcc "<details>".data (blocksToMarkdown 5 none [toggleWithKids]).data = 1 ∧
      countOcc "</details>".data (blocksToMarkdown 5 none [toggleWithKids]).data = 0 ∧
      countOcc "<details>".data
          (blocksToMarkdown 5 (some fun _ => Except.error ()) [toggleWithKids]).data = 1 ∧
      countOcc "</details>".data
          (blocksToMarkdown 5 (some fun _ => Except.error ()) [toggleWithKids]).data = 0 := by
  refine ⟨by decide, by decide, by decide, by decide⟩

/-- Toggles and toggleable headings are never child-page/child-database
references, so their children are not skipped. -/
theorem isToggle_not_skip (b : Block) (ht : isToggleOrToggleHeading b = true) :
    shouldSkipChildren b = false := by
  have htype : b.type = "toggle" ∨ b.type = "heading_1" ∨ b.type = "heading_2" ∨
      b.type = "heading_3" := by
    unfold isToggleOrToggleHeading at ht
    by_cases h : b.type = "toggle"
    · exact Or.inl h
    · rw [if_neg h] at ht
      simp only [Bool.or_eq_true, Bool.and_eq_true, decide_eq_true_eq] at ht
      rcases ht with (⟨h1, _⟩ | ⟨h2, _⟩) | ⟨h3, _⟩
      · exact Or.inr (Or.inl h1)
      · exact Or.inr (Or.inr (Or.inl h2))
      · exact Or.inr (Or.inr (Or.inr h3))
  unfold shouldSkipChildren
  rcases htype with h | h | h | h <;> rw [h] <;> decide

/-- C2 (amended): for a toggle or toggleable heading, the close is emitted
immediately when the block reports no children, and after the
recursively-assembled child content when a callback is present and the
fetch succeeds; when the callback is absent or the fetch fails, the opened
fragment is emitted without any close (the parent fragment still appears,
the document is merely left unbalanced). -/
theorem C2_disclosure_close_emission (fuel : Nat) (gcb : Option GetChildBlocks)
    (f : GetChildBlocks) (b : Block) (kids : List Block)
    (ht : isToggleOrToggleHeading b = true) :
    (b.has_children = false →
        processNormalBlock fuel gcb b = blockToMarkdown b ++ "\n\n" ++ "</details>\n") ∧
    (b.has_children = true →
        processNormalBlock fuel none b = blockToMarkdown b ++ "\n\n") ∧
    (b.has_children = true → f b.id = Except.error () →
        processNormalBlock (fuel + 1) (some f) b = blockToMarkdown b ++ "\n\n") ∧
    (b.has_children = true → f b.id = Except.ok kids →
        processNormalBlock (fuel + 1) (some f) b =
          blockToMarkdown b ++ "\n\n" ++
            ensureTrailingBlank (blocksToMarkdown fuel (some f) kids) ++ "</details>\n") := by
  have hskip := isToggle_not_skip b ht
  refine ⟨?_, ?_, ?_, ?_⟩
  · intro hc
    rw [processNormalBlock.eq_def]
    simp [ht, hc]
  · intro hc
    rw [processNormalBlock.eq_def]
    simp [ht, hc, hskip]
  · intro hc hf
    rw [processNormalBlock.eq_def]
    simp [ht, hc, hskip, hf]
  · intro hc hf
    rw [processNormalBlock.eq_def]
    simp [ht, hc, hskip, hf, blocksToMarkdown]

/-- C2 witness: the amended theorem's no-children clause at a concrete
toggle block. -/
theorem C2_disclosure_close_emission_witness :
    processNormalBlock 0 none
        { id := "t0", type := "toggle", has_children := false,
          toggle := some { rich_text := some [⟨"W"⟩] } } =
      blockToMarkdown
          { id := "t0", type := "toggle", has_children := false,
            toggle := some { rich_text := some [⟨"W"⟩] } } ++ "\n\n" ++ "</details>\n" :=
  (C2_disclosure_close_emission 0 none (fun _ => Except.ok []) _ [] (by decide)).1 rfl

/-! ## Claim C6 — table separator placement -/

/-- A `table_row` block under parent `p` with the given cells. -/
def tRow (p : String) (cells : List (List RichText)) : Block :=
  { id := "", type := "table_row", parent := some ⟨some p⟩,
    table_row := some ⟨some cells⟩ }

/-- A `paragraph` block with the given payload. -/
def paraB (pp : Option ParagraphData) : Block :=
  { type := "paragraph", paragraph := pp }

/-- The emitted markdown line of a table row. -/
def rowLine (cells : List (List RichText)) : String :=
  "| " ++ joinSep " | " (cells.map fun cr => joinSep "" (cr.map (·.plain_text))) ++
    " |" ++ "\n"

/-- The emitted separator line for a row with `n` cells. -/
def sepLine (n : Nat) : String :=
  "| " ++ joinSep " | " (List.replicate n "---") ++ " |" ++ "\n"

/-- Reference assembler written from the claim's separator invariant, to be
compared with the source's `blocksToMarkdownGo`: each `table_row` block
contributes its rendered line, IMMEDIATELY followed by a separator row
sized to that row's cell count exactly when the row opens a distinct table
run — its parent id differs from the tracked current-table parent — and by
no separator otherwise; every other block contributes its normal fragment
and resets the tracked parent to null unless it is a `table` block. The
only state is the tracked parent: no first-row flag. -/
def specSeparatorAssemble (pnb : Block → String) : JsMaybeStr → List Block → String
  | _, [] => ""
  | cur, b :: rest =>
    if b.type = "table_row" then
      (blockToMarkdown b ++ "\n" ++
        (if rowParentJs b ≠ cur then
          sepLine ((b.table_row.bind (·.cells)).getD []).length
        else "")) ++
        specSeparatorAssemble pnb (rowParentJs b) rest
    else
      pnb b ++ specSeparatorAssemble pnb (if b.type ≠ "table" then some none else cur) rest

/-- The assembler loop agrees with the reference assembler on EVERY block
list, from any tracked parent, whenever its first-row flag is down — and
the flag is down at every loop entry: initially, after every table row, and
after every normal block. So the flag is redundant and the source's
two-field state machine implements exactly the claimed separator rule. -/
theorem blocksToMarkdownGo_eq_specSeparator (pnb : Block → String) :
    ∀ (blocks : List Block) (cur : JsMaybeStr),
      blocksToMarkdownGo pnb ⟨cur, false⟩ blocks = specSeparatorAssemble pnb cur blocks := by
  intro blocks
  induction blocks with
  | nil => intro cur; rfl
  | cons b rest ih =>
    intro cur
    by_cases hb : b.type = "table_row"
    · by_cases hp : rowParentJs b = cur
      · simp only [blocksToMarkdownGo, specSeparatorAssemble, processTableRow,
          if_pos hb, hp]
        simp [ih]
      · simp only [blocksToMarkdownGo, specSeparatorAssemble, processTableRow,
          if_pos hb, if_pos hp, if_neg hp]
        simp [hp, ih, sepLine, String.append_assoc]
        rfl
    · by_cases ht : b.type = "table"
      · simp only [blocksToMarkdownGo, specSeparatorAssemble, if_neg hb, ht]
        simp [ih]
      · simp only [blocksToMarkdownGo, specSeparatorAssemble, if_neg hb]
        simp [ht, ih]

/-- C6: in ANY assembled document, a separator row sized to the row's cell
count immediately follows the first table-row of each distinct table run
and only that row — the output of `blocksToMarkdown` coincides, for every
block list, with the reference assembler that emits a separator exactly
when a table-row's parent differs from the tracked current-table parent,
which any non-table-row block other than a `table` block resets (child
documents are assembled by the same loop, so the equality covers them at
every level). In particular, for
`[table-row(p), table-row(p), paragraph, table-row(p), table-row(p)]`
exactly two separator rows are emitted — immediately after the first and
the third row — because the intervening paragraph resets the current-table
state even though the parent id `p` is unchanged. -/
theorem C6_table_separator_invariant (fuel : Nat) (gcb : Option GetChildBlocks)
    (blocks : List Block) (p : String) (c1 c2 c3 c4 : List (List RichText))
    (pp : Option ParagraphData) :
    blocksToMarkdown fuel gcb blocks =
      specSeparatorAssemble (processNormalBlock fuel gcb) (some none) blocks ∧
    blocksToMarkdown fuel gcb
        [tRow p c1, tRow p c2, paraB pp, tRow p c3, tRow p c4] =
      rowLine c1 ++ sepLine c1.length ++
        (rowLine c2 ++
          ((blockToMarkdown (paraB pp) ++ "\n\n") ++
            (rowLine c3 ++ sepLine c3.length ++ (rowLine c4 ++ "")))) := by
  constructor
  · exact blocksToMarkdownGo_eq_specSeparator (processNormalBlock fuel gcb) blocks (some none)
  · simp [blocksToMarkdown, blocksToMarkdownGo, tRow, paraB, processTableRow,
      processNormalBlock.eq_def, rowParentJs, rowLine, sepLine, blockToMarkdown,
      renderTableRow, isToggleOrToggleHeading, shouldSkipChildren,
      String.append_assoc]
    rfl

end VN

namespace VN

/-! ## Claim C1 — hierarchy cache read-hit behaviour -/

/-- A one-entry disk cache for the children of `page:abc`, written at
time 100. -/
def c1disk : List (String × CacheFile) :=
  [("page:abc.json", ⟨some 100, [⟨"c1", "T", "page"⟩]⟩)]

/-- C1 counterexample: the claim says every successful disk read-hit during
a children lookup rewrites the entry with a fresh timestamp. At time 150
(well within TTL 1000) the hit returns the data but leaves the disk — and
hence the stored timestamp 100 — entirely unchanged. -/
theorem C1_read_hit_counterexample :
    loadFromCache 150 1000 "page:abc" c1disk =
        (some [⟨"c1", "T", "page"⟩], c1disk) ∧
      alistGet c1disk "page:abc.json" = some ⟨some 100, [⟨"c1", "T", "page"⟩]⟩ ∧
      (100 : Int) ≠ 150 := by
  refine ⟨rfl, rfl, by decide⟩

/-- C1 (amended): a successful disk read-hit of the hierarchy children
cache returns the entry WITHOUT rewriting it — its TTL window is fixed from
write time — whereas the page-state disk cache (`loadPageFromDiskCache`)
does rewrite the entry with a fresh timestamp on every hit. -/
theorem C1_read_hit_fixed_window (now ttl ts : Int) (key : String)
    (disk : List (String × CacheFile)) (entry : CacheFile)
    (pdisk : List (String × PageCacheFile)) (pid : String) (pentry : PageCacheFile)
    (hget : alistGet disk (getCachePath key) = some entry)
    (hts : entry.timestamp = some ts) (hts0 : ts ≠ 0)
    (hfresh : now - ts ≤ ttl)
    (hpget : alistGet pdisk (pid ++ ".json") = some pentry)
    (hpfresh : now - pentry.timestamp ≤ ttl) :
    loadFromCache now ttl key disk = (some entry.data, disk) ∧
      loadPageFromDiskCache now ttl pid pdisk =
        (some pentry.state, alistPut pdisk (pid ++ ".json") ⟨now, pentry.state⟩) := by
  constructor
  · simp only [loadFromCache, hget, hts, gt_iff_lt]
    rw [if_neg hts0, if_neg (not_lt.mpr hfresh)]
  · simp only [loadPageFromDiskCache, hpget, gt_iff_lt, savePageToDiskCache]
    rw [if_neg (not_lt.mpr hpfresh)]

/-- C1 witness: the amended theorem at the concrete one-entry caches. -/
theorem C1_read_hit_fixed_window_witness :
    loadFromCache 150 1000 "page:xyz" [("page:xyz.json", ⟨some 100, []⟩)] =
        (some [], [("page:xyz.json", ⟨some 100, []⟩)]) ∧
      loadPageFromDiskCache 150 1000 "xyz" [("xyz.json", ⟨100, "S"⟩)] =
        (some "S", alistPut [("xyz.json", ⟨100, "S"⟩)] ("xyz" ++ ".json") ⟨150, "S"⟩) :=
  C1_read_hit_fixed_window 150 1000 100 "page:xyz" _ ⟨some 100, []⟩ _ "xyz" ⟨100, "S"⟩
    rfl rfl (by decide) (by decide) rfl (by decide)

/-! ## Claim C8 — manual refresh of one node -/

/-- Origin children before the refresh. -/
def c8origin1 : String → String → List NotionPageTreeItem :=
  fun _ _ => [⟨"c1", "Child1", "page"⟩]

/-- Origin children after the refresh (the node changed remotely). -/
def c8origin2 : String → String → List NotionPageTreeItem :=
  fun _ _ => [⟨"c2", "Child2", "page"⟩]

/-- Provider state after one children lookup for page `abc` populated both
cache layers. -/
def c8st1 : ProvState :=
  (fetchPageChildren 100 1000 c8origin1 "page" "abc" ⟨[], []⟩).2

/-- C8: `refreshItem("abc")` deletes the in-memory key `"abc"` while the
entry is stored under `"page:abc"`, and unlinks `"abc.json"` while the
entry was saved (via `getCachePath` on the composite key) as
`"page:abc.json"`. Nothing is deleted, and the next children lookup returns
the stale cached list instead of the fresh origin result. -/
theorem C8_refresh_item_code_bug :
    alistGet (refreshItem "abc" c8st1).cache "page:abc" =
        some [⟨"c1", "Child1", "page"⟩] ∧
      alistGet (refreshItem "abc" c8st1).disk "page:abc.json" =
        some ⟨some 100, [⟨"c1", "Child1", "page"⟩]⟩ ∧
      refreshItem "abc" c8st1 = c8st1 ∧
      (fetchPageChildren 200 1000 c8origin2 "page" "abc" (refreshItem "abc" c8st1)).1 =
        [⟨"c1", "Child1", "page"⟩] ∧
      c8origin2 "page" "abc" = [⟨"c2", "Child2", "page"⟩] := by
  refine ⟨rfl, rfl, by decide, rfl, rfl⟩

/-! ## Claim C9 — inline database with empty row set -/

/-- C9: when the metadata lookup reports `is_inline = true` for every
database id and every row fetch succeeds with the empty list, the
placeholder-resolution step leaves the markdown unchanged (every
placeholder token stays verbatim) and collects no inline database entry. -/
theorem C9_inline_empty_rows (markdown : String)
    (queryRows : String → Except Unit (List Row))
    (getDatabaseInfo : String → Except Unit DbInfo)
    (hq : ∀ id, queryRows id = Except.ok [])
    (hg : ∀ id, ∃ t, getDatabaseInfo id = Except.ok ⟨true, t⟩) :
    collectInlineDbData markdown queryRows (some getDatabaseInfo) =
      (markdown, []) := by
  have step : ∀ (ms : List PMatch) (md : String),
      collectInlineGo queryRows (some getDatabaseInfo) ms md [] = (md, []) := by
    intro ms
    induction ms with
    | nil => intro md; rfl
    | cons m rest ih =>
      intro md
      have hstep : collectInlineStep queryRows (some getDatabaseInfo) m md [] = (md, []) := by
        rcases hg m.databaseId with ⟨t, hgt⟩
        unfold collectInlineStep
        by_cases hid : m.databaseId = "" ∨ m.title = ""
        · simp [hid]
        · push_neg at hid
          simp [hid.1, hid.2, hgt, hq m.databaseId]
      rw [collectInlineGo, hstep]
      exact ih md
  unfold collectInlineDbData
  cases scanPlaceholders markdown with
  | nil => rfl
  | cons m rest => exact step (m :: rest) markdown

/-- C9 witness: a markdown containing one placeholder, a row fetch returning
no rows, a metadata fetch reporting inline. -/
theorem C9_inline_empty_rows_witness :
    collectInlineDbData "a __INLINE_DB_PLACEHOLDER__db1__T1__ b"
        (fun _ => Except.ok []) (some fun _ => Except.ok ⟨true, "DB"⟩) =
      ("a __INLINE_DB_PLACEHOLDER__db1__T1__ b", []) :=
  C9_inline_empty_rows _ _ _ (fun _ => rfl) (fun _ => ⟨"DB", rfl⟩)

end VN
